import Mathlib

/-!
# Verification of go-jira-scraper core components

Shallow embedding of the three core components of the `go-jira-scraper`
repository, with proofs of the specification's testable properties:

* the resilient HTTP request layer (`pkg/jira/client.go`:
  `doRequestWithRetry`, `GetAllIssuesInProject`),
* the dual-keyed disk cache (`pkg/cache/disk.go`: `WriteIssue`,
  `GetIssue`, `GetIssueByID`, `Exists`),
* the sync orchestrator (`pkg/scraper/scraper.go`: `ScrapeProject`).

Network responses and filesystem faults are modelled as explicit oracles;
durations are in seconds (retry waits) or milliseconds (throttle sleeps),
and wall-clock time is an abstract `Nat` that the caller advances.
-/

set_option autoImplicit false

namespace JiraScraper

/-! ## Request layer (`pkg/jira/client.go`, `doRequestWithRetry`)

One loop iteration of `doRequestWithRetry` observes one `AttemptOutcome`:
either the transport fails (`httpClient.Do` error), the body read fails
(`io.ReadAll` error), or a response arrives with a status code, a
`Retry-After` header value (`""` when absent, as `Header.Get` returns),
and a body. -/

inductive AttemptOutcome where
  | connErr (cause : String)
  | readErr (cause : String)
  | response (status : Nat) (retryAfter : String) (body : String)
  deriving DecidableEq, Repr

/-- The error message `doRequestWithRetry` records in `lastErr` for a
transport-level failure (`request failed: %w` / `failed to read response
body: %w`). -/
def transportMsg : AttemptOutcome → String
  | .connErr c => "request failed: " ++ c
  | .readErr c => "failed to read response body: " ++ c
  | .response _ _ _ => ""

/-- An outcome is a transport-level failure (connection or body read). -/
def isTransportErr : AttemptOutcome → Bool
  | .connErr _ => true
  | .readErr _ => true
  | .response _ _ _ => false

/-- The errors `doRequestWithRetry` can return. -/
inductive ReqError where
  | maxRetriesExceeded (last : String)
  | rateLimitExceeded (maxRetries : Nat) (body : String)
  | apiError (status : Nat) (body : String)
  deriving DecidableEq, Repr

/-- `strconv.Atoi`: optional sign followed by at least one digit, nothing
else. -/
def atoi? (s : String) : Option Int :=
  match s.data with
  | [] => none
  | c :: rest =>
    let (neg, digits) :=
      if c = '-' then (true, rest)
      else if c = '+' then (false, rest)
      else (false, c :: rest)
    if digits = [] then none
    else if digits.all (·.isDigit) then
      let n := digits.foldl (fun acc d => acc * 10 + (d.toNat - '0'.toNat)) 0
      some (if neg then -(n : Int) else (n : Int))
    else none

/-- The wait before the next attempt after a 429 at `attempt`: the
`Retry-After` header value if it parses as a positive integer of seconds,
else the exponential backoff `2^(attempt+1)` (client.go lines 112-124). -/
def retryWait (retryAfter : String) (attempt : Nat) : Nat :=
  let w : Nat :=
    if retryAfter ≠ "" then
      match atoi? retryAfter with
      | some s => if s > 0 then s.toNat else 0
      | none => 0
    else 0
  if w = 0 then 2 ^ (attempt + 1) else w

/-- The observable result of a `doRequestWithRetry` run: final result,
the sequence of backoff sleeps (seconds, in order), and the number of
loop iterations (attempts) performed. -/
structure RunTrace where
  result : Except ReqError String
  sleeps : List Nat
  attemptsMade : Nat
  deriving Repr

/-- The retry loop of `doRequestWithRetry`, from iteration `attempt`
with accumulated `lastErr`, observing `outcomes` (attempt number ↦ what
that attempt sees). Mirrors client.go lines 59-137. -/
def loopFrom (outcomes : Nat → AttemptOutcome) (maxRetries : Nat)
    (attempt : Nat) (lastErr : String) : RunTrace :=
  if maxRetries < attempt then
    { result := .error (.maxRetriesExceeded lastErr), sleeps := [], attemptsMade := 0 }
  else
    match outcomes attempt with
    | .connErr c =>
      let le := "request failed: " ++ c
      let rest := loopFrom outcomes maxRetries (attempt + 1) le
      { rest with
        sleeps := (if attempt < maxRetries then [2 ^ (attempt + 1)] else []) ++ rest.sleeps,
        attemptsMade := rest.attemptsMade + 1 }
    | .readErr c =>
      let le := "failed to read response body: " ++ c
      let rest := loopFrom outcomes maxRetries (attempt + 1) le
      { rest with
        sleeps := (if attempt < maxRetries then [2 ^ (attempt + 1)] else []) ++ rest.sleeps,
        attemptsMade := rest.attemptsMade + 1 }
    | .response status retryAfter body =>
      if 200 ≤ status ∧ status < 300 then
        { result := .ok body, sleeps := [], attemptsMade := 1 }
      else if status = 429 then
        if maxRetries ≤ attempt then
          { result := .error (.rateLimitExceeded maxRetries body), sleeps := [],
            attemptsMade := 1 }
        else
          let rest := loopFrom outcomes maxRetries (attempt + 1) lastErr
          { rest with
            sleeps := retryWait retryAfter attempt :: rest.sleeps,
            attemptsMade := rest.attemptsMade + 1 }
      else
        { result := .error (.apiError status body), sleeps := [], attemptsMade := 1 }
  termination_by maxRetries + 1 - attempt
  decreasing_by all_goals omega

/-- `doRequestWithRetry` with the default budget used by `doRequest`
(`maxRetries = 3`, 4 total attempts). -/
def doRequest (outcomes : Nat → AttemptOutcome) : RunTrace :=
  loopFrom outcomes 3 0 ""

/-! ## Pagination (`pkg/jira/client.go`, `GetAllIssuesInProject`)

`Search` is modelled as an oracle from the request parameters the loop
varies (`maxResults = batchSize`, `startAt`) to either an error or one
page.  A page carries the server-reported `total` (a Go `int`, kept as
`Int`) and the page's issue keys (the only field the loop reads). -/

structure SearchResult where
  total : Int
  issues : List String
  deriving DecidableEq, Repr

/-- The inner `for _, issue := range result.Issues` loop: append each key
to `allKeys` and return early (second component `true`) as soon as
`limit > 0 && len(allKeys) >= limit` (client.go lines 222-230). -/
def accumulateKeys (limit : Int) (acc : List String) :
    List String → List String × Bool
  | [] => (acc, false)
  | k :: rest =>
    let acc' := acc ++ [k]
    if limit > 0 ∧ limit ≤ (acc'.length : Int) then (acc', true)
    else accumulateKeys limit acc' rest

/-- The pagination loop of `GetAllIssuesInProject` (client.go lines
216-241), from offset `startAt` with accumulated keys `acc`.  `fuel`
bounds the number of iterations the model is willing to run; `none`
means the loop has not finished within `fuel` pages. -/
def getAllLoop (server : Nat → Nat → Except String SearchResult)
    (batchSize : Nat) (limit : Int) :
    Nat → Nat → List String → Option (Except String (List String))
  | 0, _, _ => none
  | fuel + 1, startAt, acc =>
    match server batchSize startAt with
    | .error e => some (.error e)
    | .ok res =>
      let r := accumulateKeys limit acc res.issues
      if r.2 then some (.ok r.1)
      else if res.total ≤ ((startAt : Int) + (res.issues.length : Int)) then
        some (.ok r.1)
      else
        getAllLoop server batchSize limit fuel (startAt + res.issues.length) r.1

/-- `GetAllIssuesInProject`: run the pagination loop from offset 0 with
no accumulated keys. -/
def GetAllIssuesInProject (server : Nat → Nat → Except String SearchResult)
    (batchSize : Nat) (limit : Int) (fuel : Nat) :
    Option (Except String (List String)) :=
  getAllLoop server batchSize limit fuel 0 []

/-! ## Data model (`pkg/models/issue.go`)

Timestamps that the remote serves (`created`, `updated`, ...) are opaque
strings, exactly as in the source.  The cache's own `FetchedAt` wall
clock is modelled as an abstract `Nat` tick supplied by the caller
(`time.Now().UTC()` at the moment of the write). -/

structure User where
  name : String
  key : String
  displayName : String
  deriving DecidableEq, Repr

structure Status where
  id : String
  name : String
  deriving DecidableEq, Repr

structure Priority where
  id : String
  name : String
  deriving DecidableEq, Repr

structure IssueType where
  id : String
  name : String
  deriving DecidableEq, Repr

structure IssueFields where
  summary : String
  description : String
  issuetype : Option IssueType
  status : Option Status
  priority : Option Priority
  assignee : Option User
  creator : Option User
  created : String
  updated : String
  resolutiondate : Option String
  deriving DecidableEq, Repr

structure HistoryItem where
  field : String
  fieldtype : String
  src : Option String
  srcString : Option String
  dst : Option String
  dstString : Option String
  deriving DecidableEq, Repr

structure History where
  id : String
  author : Option User
  created : String
  items : List HistoryItem
  deriving DecidableEq, Repr

structure Changelog where
  startAt : Int
  maxResults : Int
  total : Int
  histories : List History
  deriving DecidableEq, Repr

structure IssueWithHistory where
  id : String
  key : String
  self : String
  fields : Option IssueFields
  changelog : Option Changelog
  deriving DecidableEq, Repr

structure CacheMetadata where
  fetchedAt : Nat
  fetchedBy : String
  apiCallDurationMS : Int
  deriving DecidableEq, Repr

/-- The persisted envelope.  The on-disk file is the deterministic
indented-JSON serialization of this value, so value equality models byte
identity of the files. -/
structure CachedIssue where
  cacheMetadata : CacheMetadata
  jiraData : IssueWithHistory
  deriving DecidableEq, Repr

/-! ## Disk cache (`pkg/cache/disk.go`)

The cache directory for one host is two maps: `by_id/<id>.json` holds
envelopes, and `by_key/<key>.json` holds symbolic links, each recorded
as the `<id>` its relative target `../by_id/<id>.json` names.  Path
resolution through a by-key link therefore reads `byId` at the stored
target. -/

structure CacheFS where
  byId : String → Option CachedIssue
  byKey : String → Option String

/-- Point update of a string-keyed map. -/
def setEntry {α : Type} (f : String → Option α) (k : String) (v : Option α) :
    String → Option α :=
  fun x => if x = k then v else f x

/-- The empty cache directory (fresh `Initialize`). -/
def emptyFS : CacheFS := ⟨fun _ => none, fun _ => none⟩

/-- Fault injection for the two filesystem syscalls `WriteIssue` makes
that the source treats differently: the `os.WriteFile` of the by-ID
file, and the `os.Symlink` of the by-key entry. -/
structure FsFaults where
  writeFails : Bool
  symlinkFails : Bool
  deriving DecidableEq, Repr

/-- The constant fetcher identity tag written into every envelope. -/
def fetcherTag : String := "go-jira-scraper/0.1.0"

/-- The fresh envelope `WriteIssue` builds around the fetched issue:
current wall-clock time, the constant fetcher tag, and the API call
duration in milliseconds (disk.go lines 80-87). -/
def mkEnvelope (now : Nat) (issue : IssueWithHistory) (durationMS : Int) : CachedIssue :=
  { cacheMetadata :=
      { fetchedAt := now, fetchedBy := fetcherTag, apiCallDurationMS := durationMS },
    jiraData := issue }

/-- What a `WriteIssue` call produces: the cache directory afterwards,
the returned value (`ok` carries the by-ID path), and whether the
warning about a failed symlink was logged. -/
structure WriteOutcome where
  fs : CacheFS
  result : Except String String
  warned : Bool

/-- `WriteIssue` (disk.go lines 76-116): wrap the issue in fresh
metadata, write the envelope to `by_id/<id>.json` (failure is fatal),
remove any existing `by_key/<key>.json` entry, then recreate it as a
symlink to the by-ID file — a symlink failure is logged as a warning
and is not an error. -/
def WriteIssue (faults : FsFaults) (fs : CacheFS) (now : Nat)
    (issue : IssueWithHistory) (durationMS : Int) : WriteOutcome :=
  let cached : CachedIssue := mkEnvelope now issue durationMS
  if faults.writeFails then
    { fs := fs, result := .error "failed to write issue file", warned := false }
  else
    let fs1 : CacheFS := { fs with byId := setEntry fs.byId issue.id (some cached) }
    let fs2 : CacheFS := { fs1 with byKey := setEntry fs1.byKey issue.key none }
    let idPath := "by_id/" ++ issue.id ++ ".json"
    if faults.symlinkFails then
      { fs := fs2, result := .ok idPath, warned := true }
    else
      { fs := { fs2 with byKey := setEntry fs2.byKey issue.key (some issue.id) },
        result := .ok idPath, warned := false }

/-- `GetIssue` (disk.go lines 119-123): resolve `by_key/<key>.json`
through the symlink; an absent entry (or dangling link) is the
distinguished not-found error. -/
def GetIssue (fs : CacheFS) (key : String) : Except String CachedIssue :=
  match fs.byKey key with
  | none => .error "issue not found in cache"
  | some id =>
    match fs.byId id with
    | none => .error "issue not found in cache"
    | some cached => .ok cached

/-- `GetIssueByID` (disk.go lines 126-130): read `by_id/<id>.json`
directly. -/
def GetIssueByID (fs : CacheFS) (id : String) : Except String CachedIssue :=
  match fs.byId id with
  | none => .error "issue not found in cache"
  | some cached => .ok cached

/-- `Exists` (disk.go lines 173-178): `os.Stat` on the by-key path,
which follows the symlink — true exactly when the entry exists and its
target file exists. -/
def Exists (fs : CacheFS) (key : String) : Bool :=
  match fs.byKey key with
  | none => false
  | some id => (fs.byId id).isSome

/-! ## Sync orchestrator (`pkg/scraper/scraper.go`, `ScrapeProject`)

`GetIssueWithHistory` is an oracle from the key to either a fetch error
or the fetched issue with the call's duration in milliseconds; per-key
`FsFaults` inject write/symlink failures into the cache writes.  The
run produces the counters of `ScrapeResult` plus the cache directory
afterwards and an event trace recording, in order, what happened per
key — including the politeness sleeps, so that the timing claims are
statable. -/

structure ScrapeResult where
  issuesProcessed : Nat
  apiCalls : Nat
  cacheHits : Nat
  errors : Nat
  deriving DecidableEq, Repr

inductive FetchEvent where
  | fetchError (key : String)
  | writeError (key : String)
  | wrote (key : String)
  | sleep (ms : Nat)
  deriving DecidableEq, Repr

/-- The planning loop (scraper.go lines 177-190): classify each
enumerated key as to-fetch or cache hit.  Full sync fetches everything;
incremental fetches exactly the keys `Exists` denies, counting the rest
as cache hits. -/
def planKeys (fullSync : Bool) (fs : CacheFS) :
    List String → List String × Nat
  | [] => ([], 0)
  | key :: rest =>
    let p := planKeys fullSync fs rest
    if fullSync then (key :: p.1, p.2)
    else if Exists fs key then (p.1, p.2 + 1)
    else (key :: p.1, p.2)

/-- State threaded through the fetch loop: the cache directory, the two
counters the loop increments, and the wall clock (advanced by one tick
per processed key). -/
structure FetchState where
  fs : CacheFS
  apiCalls : Nat
  errors : Nat
  clock : Nat

/-- The fetch loop (scraper.go lines 195-216): for each to-fetch key,
call `GetIssueWithHistory`; on fetch error count it and continue; on
success count the API call, `WriteIssue` the result; on write error
count it and continue; after a successful write sleep 500 ms.  The
`continue` statements skip the sleep. -/
def fetchLoop (fetch : String → Except String (IssueWithHistory × Int))
    (faults : String → FsFaults) :
    List String → FetchState → FetchState × List FetchEvent
  | [], st => (st, [])
  | key :: rest, st =>
    match fetch key with
    | .error _ =>
      let r := fetchLoop fetch faults rest
        { st with errors := st.errors + 1, clock := st.clock + 1 }
      (r.1, .fetchError key :: r.2)
    | .ok (issue, durationMS) =>
      let st1 := { st with apiCalls := st.apiCalls + 1 }
      let w := WriteIssue (faults key) st1.fs st1.clock issue durationMS
      match w.result with
      | .error _ =>
        let r := fetchLoop fetch faults rest
          { st1 with fs := w.fs, errors := st1.errors + 1, clock := st1.clock + 1 }
        (r.1, .writeError key :: r.2)
      | .ok _ =>
        let r := fetchLoop fetch faults rest
          { st1 with fs := w.fs, clock := st1.clock + 1 }
        (r.1, .wrote key :: .sleep 500 :: r.2)

/-- `ScrapeProject` (scraper.go lines 160-223): enumerate (an
enumeration error aborts the run), plan against the cache, run the
fetch loop, and report the counters. -/
def ScrapeProject (enum : Except String (List String))
    (fetch : String → Except String (IssueWithHistory × Int))
    (faults : String → FsFaults) (fullSync : Bool)
    (fs : CacheFS) (clock : Nat) :
    Except String (ScrapeResult × CacheFS × List FetchEvent) :=
  match enum with
  | .error e => .error ("failed to search issues: " ++ e)
  | .ok issueKeys =>
    let p := planKeys fullSync fs issueKeys
    let r := fetchLoop fetch faults p.1
      { fs := fs, apiCalls := 0, errors := 0, clock := clock }
    .ok ({ issuesProcessed := issueKeys.length, apiCalls := r.1.apiCalls,
           cacheHits := p.2, errors := r.1.errors }, r.1.fs, r.2)

/-- Trace well-formedness for the politeness throttle: every `wrote`
event is immediately followed by a 500 ms `sleep`, and sleeps occur
nowhere else (in particular not after `fetchError`/`writeError`). -/
def sleepsFollowWrites : List FetchEvent → Bool
  | [] => true
  | .wrote _ :: .sleep n :: rest => n = 500 && sleepsFollowWrites rest
  | .wrote _ :: _ => false
  | .sleep _ :: _ => false
  | _ :: rest => sleepsFollowWrites rest

/-! ## Step equations for the retry loop -/

theorem loopFrom_exit (o : Nat → AttemptOutcome) (mr a : Nat) (le : String)
    (h : mr < a) :
    loopFrom o mr a le =
      { result := .error (.maxRetriesExceeded le), sleeps := [], attemptsMade := 0 } := by
  rw [loopFrom, if_pos h]

theorem loopFrom_conn (o : Nat → AttemptOutcome) (mr a : Nat) (le c : String)
    (ha : a ≤ mr) (ho : o a = .connErr c) :
    loopFrom o mr a le =
      { result := (loopFrom o mr (a+1) ("request failed: " ++ c)).result,
        sleeps := (if a < mr then [2 ^ (a+1)] else []) ++
          (loopFrom o mr (a+1) ("request failed: " ++ c)).sleeps,
        attemptsMade := (loopFrom o mr (a+1) ("request failed: " ++ c)).attemptsMade + 1 } := by
  rw [loopFrom, if_neg (by omega), ho]

theorem loopFrom_read (o : Nat → AttemptOutcome) (mr a : Nat) (le c : String)
    (ha : a ≤ mr) (ho : o a = .readErr c) :
    loopFrom o mr a le =
      { result := (loopFrom o mr (a+1) ("failed to read response body: " ++ c)).result,
        sleeps := (if a < mr then [2 ^ (a+1)] else []) ++
          (loopFrom o mr (a+1) ("failed to read response body: " ++ c)).sleeps,
        attemptsMade :=
          (loopFrom o mr (a+1) ("failed to read response body: " ++ c)).attemptsMade + 1 } := by
  rw [loopFrom, if_neg (by omega), ho]

theorem loopFrom_2xx (o : Nat → AttemptOutcome) (mr a : Nat) (le : String)
    (st : Nat) (ra b : String)
    (ha : a ≤ mr) (ho : o a = .response st ra b) (h1 : 200 ≤ st) (h2 : st < 300) :
    loopFrom o mr a le = { result := .ok b, sleeps := [], attemptsMade := 1 } := by
  rw [loopFrom, if_neg (by omega), ho]
  simp [h1, h2]

theorem loopFrom_429_retry (o : Nat → AttemptOutcome) (mr a : Nat) (le : String)
    (ra b : String) (ha : a < mr) (ho : o a = .response 429 ra b) :
    loopFrom o mr a le =
      { result := (loopFrom o mr (a+1) le).result,
        sleeps := retryWait ra a :: (loopFrom o mr (a+1) le).sleeps,
        attemptsMade := (loopFrom o mr (a+1) le).attemptsMade + 1 } := by
  rw [loopFrom, if_neg (by omega), ho]
  have h1 : ¬ (200 ≤ 429 ∧ 429 < 300) := by omega
  have h2 : ¬ mr ≤ a := by omega
  simp [h1, h2]

theorem loopFrom_429_exhausted (o : Nat → AttemptOutcome) (mr : Nat) (le : String)
    (ra b : String) (ho : o mr = .response 429 ra b) :
    loopFrom o mr mr le =
      { result := .error (.rateLimitExceeded mr b), sleeps := [], attemptsMade := 1 } := by
  rw [loopFrom, if_neg (by omega), ho]
  have h1 : ¬ (200 ≤ 429 ∧ 429 < 300) := by omega
  simp [h1]

theorem loopFrom_other (o : Nat → AttemptOutcome) (mr a : Nat) (le : String)
    (st : Nat) (ra b : String)
    (ha : a ≤ mr) (ho : o a = .response st ra b)
    (hno2xx : st < 200 ∨ 300 ≤ st) (h429 : st ≠ 429) :
    loopFrom o mr a le =
      { result := .error (.apiError st b), sleeps := [], attemptsMade := 1 } := by
  rw [loopFrom, if_neg (by omega), ho]
  have h1 : ¬ (200 ≤ st ∧ st < 300) := by omega
  simp [h1, h429]

/-- Every run of the retry loop from `attempt` performs at most
`maxRetries + 1 - attempt` further attempts. -/
theorem loopFrom_attempts_le (o : Nat → AttemptOutcome) (mr : Nat) :
    ∀ n a le, mr + 1 - a ≤ n → (loopFrom o mr a le).attemptsMade ≤ mr + 1 - a := by
  intro n
  induction n with
  | zero =>
    intro a le h
    rw [loopFrom_exit o mr a le (by omega)]
    exact Nat.zero_le _
  | succ n ih =>
    intro a le h
    by_cases hx : mr < a
    · rw [loopFrom_exit o mr a le hx]
      exact Nat.zero_le _
    · have ha : a ≤ mr := by omega
      cases ho : o a with
      | connErr c =>
        rw [loopFrom_conn o mr a le c ha ho]
        have := ih (a+1) ("request failed: " ++ c) (by omega)
        show (loopFrom o mr (a+1) ("request failed: " ++ c)).attemptsMade + 1 ≤ mr + 1 - a
        omega
      | readErr c =>
        rw [loopFrom_read o mr a le c ha ho]
        have := ih (a+1) ("failed to read response body: " ++ c) (by omega)
        show (loopFrom o mr (a+1)
          ("failed to read response body: " ++ c)).attemptsMade + 1 ≤ mr + 1 - a
        omega
      | response st ra b =>
        by_cases h2xx : 200 ≤ st ∧ st < 300
        · rw [loopFrom_2xx o mr a le st ra b ha ho h2xx.1 h2xx.2]
          show (1 : Nat) ≤ mr + 1 - a
          omega
        · by_cases h429 : st = 429
          · subst h429
            by_cases hend : a < mr
            · rw [loopFrom_429_retry o mr a le ra b hend ho]
              have := ih (a+1) le (by omega)
              show (loopFrom o mr (a+1) le).attemptsMade + 1 ≤ mr + 1 - a
              omega
            · have hma : a = mr := by omega
              subst hma
              rw [loopFrom_429_exhausted o a le ra b ho]
              show (1 : Nat) ≤ a + 1 - a
              omega
          · rw [loopFrom_other o mr a le st ra b ha ho (by omega) h429]
            show (1 : Nat) ≤ mr + 1 - a
            omega

/-- A `Retry-After` header parsing as a positive integer is honoured
verbatim. -/
theorem retryWait_header (ra : String) (a : Nat) (s : Int)
    (h : atoi? ra = some s) (hs : 0 < s) :
    retryWait ra a = s.toNat := by
  have hne : ra ≠ "" := by
    intro he
    rw [he] at h
    simp [atoi?] at h
  have h0 : s.toNat ≠ 0 := by omega
  simp [retryWait, hne, h, hs, h0]

/-- An absent or non-positive `Retry-After` header falls back to the
exponential schedule. -/
theorem retryWait_fallback (ra : String) (a : Nat)
    (h : ∀ s : Int, atoi? ra = some s → s ≤ 0) :
    retryWait ra a = 2 ^ (a + 1) := by
  by_cases hra : ra = ""
  · simp [retryWait, hra]
  · cases hat : atoi? ra with
    | none => simp [retryWait, hra, hat]
    | some s =>
      have hs : ¬ s > 0 := by have := h s hat; omega
      simp [retryWait, hra, hat, hs]

/-! ## Claim C1 -/

/-- C1: the request primitive makes at most 4 total attempts (budget of
3 retries); on a transport-level failure at attempt `a` it waits
`2^(a+1)` seconds and retries while the budget allows; once the budget
is exhausted it fails with a transport error wrapping the last
underlying cause; on any 2xx response it returns the body immediately,
regardless of attempt number. -/
theorem c1_retry_budget_and_backoff :
    (∀ o : Nat → AttemptOutcome, (doRequest o).attemptsMade ≤ 4)
    ∧ (∀ (o : Nat → AttemptOutcome) (a : Nat) (le : String),
        a < 3 → isTransportErr (o a) = true →
        (loopFrom o 3 a le).sleeps
            = 2 ^ (a + 1) :: (loopFrom o 3 (a + 1) (transportMsg (o a))).sleeps
          ∧ (loopFrom o 3 a le).result
            = (loopFrom o 3 (a + 1) (transportMsg (o a))).result)
    ∧ (∀ (o : Nat → AttemptOutcome) (le : String),
        isTransportErr (o 3) = true →
        (loopFrom o 3 3 le).result
          = .error (.maxRetriesExceeded (transportMsg (o 3))))
    ∧ (∀ (o : Nat → AttemptOutcome) (a : Nat) (le : String) (st : Nat) (ra b : String),
        a ≤ 3 → o a = .response st ra b → 200 ≤ st → st < 300 →
        loopFrom o 3 a le = { result := .ok b, sleeps := [], attemptsMade := 1 }) := by
  refine ⟨fun o => ?_, fun o a le ha ht => ?_, fun o le ht => ?_,
    fun o a le st ra b ha ho h1 h2 => loopFrom_2xx o 3 a le st ra b ha ho h1 h2⟩
  · have := loopFrom_attempts_le o 3 4 0 "" (by omega)
    simpa [doRequest] using this
  · cases ho : o a with
    | connErr c =>
      rw [loopFrom_conn o 3 a le c (by omega) ho]
      simp [transportMsg, ha]
    | readErr c =>
      rw [loopFrom_read o 3 a le c (by omega) ho]
      simp [transportMsg, ha]
    | response st ra b => rw [ho] at ht; simp [isTransportErr] at ht
  · cases ho : o 3 with
    | connErr c =>
      rw [loopFrom_conn o 3 3 le c (le_refl 3) ho,
        loopFrom_exit o 3 4 ("request failed: " ++ c) (by omega)]
      simp [transportMsg]
    | readErr c =>
      rw [loopFrom_read o 3 3 le c (le_refl 3) ho,
        loopFrom_exit o 3 4 ("failed to read response body: " ++ c) (by omega)]
      simp [transportMsg]
    | response st ra b => rw [ho] at ht; simp [isTransportErr] at ht

/-- Witness for C1: a run whose every attempt is a connection error, and
a run answered 204 at once. -/
theorem c1_retry_budget_and_backoff_witness :
    (doRequest (fun _ => .connErr "refused")).attemptsMade ≤ 4
    ∧ ((loopFrom (fun _ => .connErr "refused") 3 0 "").sleeps
          = 2 ^ 1 :: (loopFrom (fun _ => .connErr "refused") 3 1
              (transportMsg (.connErr "refused"))).sleeps
        ∧ (loopFrom (fun _ => .connErr "refused") 3 0 "").result
          = (loopFrom (fun _ => .connErr "refused") 3 1
              (transportMsg (.connErr "refused"))).result)
    ∧ (loopFrom (fun _ => .connErr "refused") 3 3 "").result
        = .error (.maxRetriesExceeded (transportMsg (.connErr "refused")))
    ∧ loopFrom (fun _ => .response 204 "" "done") 3 0 ""
        = { result := .ok "done", sleeps := [], attemptsMade := 1 } :=
  ⟨c1_retry_budget_and_backoff.1 (fun _ => .connErr "refused"),
   c1_retry_budget_and_backoff.2.1 (fun _ => .connErr "refused") 0 "" (by omega) rfl,
   c1_retry_budget_and_backoff.2.2.1 (fun _ => .connErr "refused") "" rfl,
   c1_retry_budget_and_backoff.2.2.2 (fun _ => .response 204 "" "done") 0 "" 204 "" "done"
     (by omega) rfl (by omega) (by omega)⟩

/-! ## Claim C2 -/

/-- C2: on a 429 within budget the client retries, waiting exactly the
`Retry-After` value when it parses as a positive integer of seconds and
`2^(attempt+1)` seconds otherwise, continuing in the same loop — same
attempt counter and budget ceiling as transport errors; a 429 on the
last allowed attempt fails with the distinct rate-limit-exhausted error
carrying the last response body. -/
theorem c2_rate_limit_handling :
    (∀ (o : Nat → AttemptOutcome) (a : Nat) (le ra b : String),
        a < 3 → o a = .response 429 ra b →
        loopFrom o 3 a le =
          { result := (loopFrom o 3 (a + 1) le).result,
            sleeps := retryWait ra a :: (loopFrom o 3 (a + 1) le).sleeps,
            attemptsMade := (loopFrom o 3 (a + 1) le).attemptsMade + 1 })
    ∧ (∀ (ra : String) (a : Nat) (s : Int),
        atoi? ra = some s → 0 < s → retryWait ra a = s.toNat)
    ∧ (∀ (ra : String) (a : Nat),
        (∀ s : Int, atoi? ra = some s → s ≤ 0) → retryWait ra a = 2 ^ (a + 1))
    ∧ (∀ (o : Nat → AttemptOutcome) (le ra b : String),
        o 3 = .response 429 ra b →
        (loopFrom o 3 3 le).result = .error (.rateLimitExceeded 3 b)) :=
  ⟨fun o a le ra b ha ho => loopFrom_429_retry o 3 a le ra b ha ho,
   retryWait_header,
   retryWait_fallback,
   fun o le ra b ho => by rw [loopFrom_429_exhausted o 3 le ra b ho]⟩

/-- Witness for C2: a server that always answers 429 with
`Retry-After: 5`, and the two backoff computations on concrete
headers. -/
theorem c2_rate_limit_handling_witness :
    (loopFrom (fun _ => .response 429 "5" "limited") 3 0 "" =
      { result := (loopFrom (fun _ => .response 429 "5" "limited") 3 1 "").result,
        sleeps := retryWait "5" 0 ::
          (loopFrom (fun _ => .response 429 "5" "limited") 3 1 "").sleeps,
        attemptsMade :=
          (loopFrom (fun _ => .response 429 "5" "limited") 3 1 "").attemptsMade + 1 })
    ∧ retryWait "5" 0 = 5
    ∧ retryWait "" 0 = 2 ^ 1
    ∧ (loopFrom (fun _ => .response 429 "5" "limited") 3 3 "").result
        = .error (.rateLimitExceeded 3 "limited") :=
  ⟨c2_rate_limit_handling.1 (fun _ => .response 429 "5" "limited") 0 "" "5" "limited"
     (by omega) rfl,
   c2_rate_limit_handling.2.1 "5" 0 5 (by decide) (by omega),
   c2_rate_limit_handling.2.2.1 "" 0 (fun s hs => by simp [atoi?] at hs),
   c2_rate_limit_handling.2.2.2 (fun _ => .response 429 "5" "limited") "" "5" "limited" rfl⟩

/-! ## Claim C8 -/

/-- C8: any non-2xx status other than 429 makes the request primitive
fail immediately — no retry, no sleep — with an error carrying the
status code and the response body. -/
theorem c8_non2xx_fails_immediately (o : Nat → AttemptOutcome) (a : Nat)
    (le : String) (st : Nat) (ra b : String)
    (ha : a ≤ 3) (ho : o a = .response st ra b)
    (hno2xx : st < 200 ∨ 300 ≤ st) (h429 : st ≠ 429) :
    loopFrom o 3 a le =
      { result := .error (.apiError st b), sleeps := [], attemptsMade := 1 } :=
  loopFrom_other o 3 a le st ra b ha ho hno2xx h429

/-- Witness for C8: a 404 on the first attempt. -/
theorem c8_non2xx_fails_immediately_witness :
    loopFrom (fun _ => .response 404 "" "not found") 3 0 "" =
      { result := .error (.apiError 404 "not found"), sleeps := [], attemptsMade := 1 } :=
  c8_non2xx_fails_immediately (fun _ => .response 404 "" "not found") 0 "" 404 "" "not found"
    (by omega) rfl (by omega) (by omega)

/-! ## Pagination lemmas -/

/-- With no positive limit the inner accumulation loop appends the whole
page and never reports the limit hit. -/
theorem accumulateKeys_nolimit (limit : Int) (hl : limit ≤ 0) :
    ∀ (issues acc : List String),
      accumulateKeys limit acc issues = (acc ++ issues, false) := by
  intro issues
  induction issues with
  | nil => intro acc; simp [accumulateKeys]
  | cons k rest ih =>
    intro acc
    rw [accumulateKeys]
    have hc : ¬ (limit > 0 ∧ limit ≤ (((acc ++ [k]).length : Nat) : Int)) := by
      intro h; omega
    rw [if_neg hc, ih]
    simp

/-- With a positive limit, starting strictly below it, the accumulation
loop reports a hit exactly at the limit and otherwise stays below it. -/
theorem accumulateKeys_bound (limit : Int) (hpos : 0 < limit) :
    ∀ (issues acc : List String), (acc.length : Int) < limit →
      (((accumulateKeys limit acc issues).2 = true →
          (((accumulateKeys limit acc issues).1.length : Nat) : Int) = limit)
        ∧ ((accumulateKeys limit acc issues).2 = false →
          (((accumulateKeys limit acc issues).1.length : Nat) : Int) < limit)) := by
  intro issues
  induction issues with
  | nil =>
    intro acc hacc
    refine ⟨fun h => ?_, fun _ => ?_⟩
    · simp [accumulateKeys] at h
    · simpa [accumulateKeys] using hacc
  | cons k rest ih =>
    intro acc hacc
    rw [accumulateKeys]
    by_cases hc : limit > 0 ∧ limit ≤ (((acc ++ [k]).length : Nat) : Int)
    · rw [if_pos hc]
      refine ⟨fun _ => ?_, fun h => ?_⟩
      · simp at hc ⊢
        omega
      · simp at h
    · rw [if_neg hc]
      apply ih
      simp at hc ⊢
      omega

/-- Any list of keys the pagination loop returns under a positive limit
has length at most the limit. -/
theorem getAllLoop_length_le (server : Nat → Nat → Except String SearchResult)
    (bs : Nat) (limit : Int) (hpos : 0 < limit) :
    ∀ (fuel startAt : Nat) (acc keys : List String), ((acc.length : Nat) : Int) < limit →
      getAllLoop server bs limit fuel startAt acc = some (.ok keys) →
      ((keys.length : Nat) : Int) ≤ limit := by
  intro fuel
  induction fuel with
  | zero =>
    intro s acc keys _ hrun
    simp [getAllLoop] at hrun
  | succ fuel ih =>
    intro s acc keys hacc hrun
    rw [getAllLoop] at hrun
    cases hs : server bs s with
    | error e =>
      rw [hs] at hrun
      simp at hrun
    | ok res =>
      rw [hs] at hrun
      simp only [] at hrun
      by_cases hhit : (accumulateKeys limit acc res.issues).2 = true
      · rw [if_pos hhit] at hrun
        have := ((accumulateKeys_bound limit hpos res.issues acc hacc).1 hhit)
        have hk : keys = (accumulateKeys limit acc res.issues).1 := by
          simpa using hrun.symm
        rw [hk]
        omega
      · rw [if_neg hhit] at hrun
        have hlt := (accumulateKeys_bound limit hpos res.issues acc hacc).2
          (by simpa using hhit)
        by_cases hdone : res.total ≤ ((s : Int) + ((res.issues.length : Nat) : Int))
        · rw [if_pos hdone] at hrun
          have hk : keys = (accumulateKeys limit acc res.issues).1 := by
            simpa using hrun.symm
          rw [hk]
          omega
        · rw [if_neg hdone] at hrun
          exact ih (s + res.issues.length) (accumulateKeys limit acc res.issues).1 keys hlt hrun

/-! ## Claim C4 -/

/-- C4: with a positive limit `N`, `GetAllIssuesInProject` returns at
most `N` keys and issues no further search page once the accumulated
count reaches `N` (it returns during that page); with no positive limit
it stops exactly when the offset plus the returned page's size reaches
the server-reported total, returning all accumulated keys, and
continues paginating otherwise. -/
theorem c4_pagination_limit_and_total :
    (∀ (server : Nat → Nat → Except String SearchResult) (bs : Nat) (limit : Int)
        (fuel : Nat) (keys : List String), 0 < limit →
        GetAllIssuesInProject server bs limit fuel = some (.ok keys) →
        ((keys.length : Nat) : Int) ≤ limit)
    ∧ (∀ (server : Nat → Nat → Except String SearchResult) (bs : Nat) (limit : Int)
        (fuel startAt : Nat) (acc : List String) (res : SearchResult),
        server bs startAt = .ok res →
        (accumulateKeys limit acc res.issues).2 = true →
        getAllLoop server bs limit (fuel + 1) startAt acc
          = some (.ok (accumulateKeys limit acc res.issues).1))
    ∧ (∀ (server : Nat → Nat → Except String SearchResult) (bs : Nat) (limit : Int)
        (fuel startAt : Nat) (acc : List String) (res : SearchResult),
        limit ≤ 0 → server bs startAt = .ok res →
        res.total ≤ ((startAt : Int) + ((res.issues.length : Nat) : Int)) →
        getAllLoop server bs limit (fuel + 1) startAt acc
          = some (.ok (acc ++ res.issues)))
    ∧ (∀ (server : Nat → Nat → Except String SearchResult) (bs : Nat) (limit : Int)
        (fuel startAt : Nat) (acc : List String) (res : SearchResult),
        limit ≤ 0 → server bs startAt = .ok res →
        ((startAt : Int) + ((res.issues.length : Nat) : Int)) < res.total →
        getAllLoop server bs limit (fuel + 1) startAt acc
          = getAllLoop server bs limit fuel (startAt + res.issues.length)
              (acc ++ res.issues)) := by
  refine ⟨?_, ?_, ?_, ?_⟩
  · intro server bs limit fuel keys hpos hrun
    exact getAllLoop_length_le server bs limit hpos fuel 0 [] keys (by simpa using hpos) hrun
  · intro server bs limit fuel s acc res hs hhit
    rw [getAllLoop, hs]
    simp only []
    rw [if_pos hhit]
  · intro server bs limit fuel s acc res hl hs hdone
    rw [getAllLoop, hs]
    simp only []
    rw [accumulateKeys_nolimit limit hl res.issues acc]
    simp only []
    rw [if_neg (by simp), if_pos hdone]
  · intro server bs limit fuel s acc res hl hs hcont
    rw [getAllLoop, hs]
    simp only []
    rw [accumulateKeys_nolimit limit hl res.issues acc]
    simp only []
    rw [if_neg (by simp), if_neg (by omega)]

/-- Witness for C4: a server always answering one key per page. -/
theorem c4_pagination_limit_and_total_witness :
    ((((["A"] : List String).length : Nat) : Int) ≤ 1)
    ∧ (getAllLoop (fun _ _ => .ok { total := 3, issues := ["A"] }) 10 1 (4 + 1) 0 []
        = some (.ok (accumulateKeys 1 [] ["A"]).1))
    ∧ (getAllLoop (fun _ _ => .ok { total := 1, issues := ["A"] }) 10 0 (0 + 1) 0 []
        = some (.ok ([] ++ ["A"])))
    ∧ (getAllLoop (fun _ _ => .ok { total := 2, issues := ["A"] }) 10 0 (1 + 1) 0 []
        = getAllLoop (fun _ _ => .ok { total := 2, issues := ["A"] }) 10 0 1 (0 + 1)
            ([] ++ ["A"])) :=
  ⟨c4_pagination_limit_and_total.1 (fun _ _ => .ok { total := 3, issues := ["A"] })
     10 1 5 ["A"] (by omega) rfl,
   c4_pagination_limit_and_total.2.1 (fun _ _ => .ok { total := 3, issues := ["A"] })
     10 1 4 0 [] { total := 3, issues := ["A"] } rfl (by decide),
   c4_pagination_limit_and_total.2.2.1 (fun _ _ => .ok { total := 1, issues := ["A"] })
     10 0 0 0 [] { total := 1, issues := ["A"] } (by omega) rfl (by decide),
   c4_pagination_limit_and_total.2.2.2 (fun _ _ => .ok { total := 2, issues := ["A"] })
     10 0 1 0 [] { total := 2, issues := ["A"] } (by omega) rfl (by decide)⟩

/-! ## Claim C9 -/

/-- C9: the pagination loop advances the offset by the length of the
returned page (not the requested page size), so whenever a page comes
back with an empty issue list while the offset is still below the
server-reported total (and the limit cut-off has not fired, which it
cannot on an empty page), the loop re-issues the same request forever:
no amount of fuel makes it finish. -/
theorem c9_offset_by_page_length_nontermination :
    (∀ (server : Nat → Nat → Except String SearchResult) (bs : Nat) (limit : Int)
        (fuel startAt : Nat) (acc : List String) (res : SearchResult),
        server bs startAt = .ok res →
        (accumulateKeys limit acc res.issues).2 = false →
        ((startAt : Int) + ((res.issues.length : Nat) : Int)) < res.total →
        getAllLoop server bs limit (fuel + 1) startAt acc
          = getAllLoop server bs limit fuel (startAt + res.issues.length)
              (accumulateKeys limit acc res.issues).1)
    ∧ (∀ (server : Nat → Nat → Except String SearchResult) (bs : Nat) (limit : Int)
        (startAt : Nat) (res : SearchResult),
        server bs startAt = .ok res → res.issues = [] →
        (startAt : Int) < res.total →
        ∀ (fuel : Nat) (acc : List String),
          getAllLoop server bs limit fuel startAt acc = none) := by
  constructor
  · intro server bs limit fuel s acc res hs hhit hcont
    rw [getAllLoop, hs]
    simp only []
    rw [if_neg (by simp [hhit]), if_neg (by omega)]
  · intro server bs limit s res hs he hlt fuel
    induction fuel with
    | zero => intro acc; simp [getAllLoop]
    | succ fuel ih =>
      intro acc
      simp only [getAllLoop, hs]
      rw [he]
      have h1 : ¬ ((accumulateKeys limit acc ([] : List String)).2 = true) := by
        simp [accumulateKeys]
      rw [if_neg h1]
      have h2 : ¬ (res.total ≤ ((s : Int) + ((([] : List String).length : Nat) : Int))) := by
        simp
        omega
      rw [if_neg h2]
      have h3 : (accumulateKeys limit acc ([] : List String)).1 = acc := by
        simp [accumulateKeys]
      rw [h3]
      simpa using ih acc

/-- Witness for C9: a server that always answers an empty page with a
reported total of 5 — three pages of fuel still end nowhere — and the
offset-advance equation on a one-key page. -/
theorem c9_offset_by_page_length_nontermination_witness :
    (getAllLoop (fun _ _ => .ok { total := 2, issues := ["A"] }) 10 0 (1 + 1) 0 []
        = getAllLoop (fun _ _ => .ok { total := 2, issues := ["A"] }) 10 0 1 (0 + 1)
            (accumulateKeys 0 [] ["A"]).1)
    ∧ getAllLoop (fun _ _ => .ok { total := 5, issues := [] }) 10 0 3 0 [] = none :=
  ⟨c9_offset_by_page_length_nontermination.1
     (fun _ _ => .ok { total := 2, issues := ["A"] }) 10 0 1 0 []
     { total := 2, issues := ["A"] } rfl (by decide) (by decide),
   c9_offset_by_page_length_nontermination.2
     (fun _ _ => .ok { total := 5, issues := [] }) 10 0 0
     { total := 5, issues := [] } rfl rfl (by decide) 3 []⟩

/-! ## Claim C6 -/

/-- C6: `WriteIssue` succeeds exactly when the by-ID file write
succeeds; on success it removes any existing by-key lookup entry and
recreates it pointing at the by-ID file; a failure to create the
by-key entry only logs a warning — the call still returns the by-ID
path, with the stale lookup entry removed. -/
theorem c6_write_issue_success_criterion (faults : FsFaults) (fs : CacheFS)
    (now : Nat) (issue : IssueWithHistory) (d : Int) :
    ((∃ p, (WriteIssue faults fs now issue d).result = .ok p)
        ↔ faults.writeFails = false)
    ∧ (faults.writeFails = false → faults.symlinkFails = false →
        (WriteIssue faults fs now issue d).fs.byKey issue.key = some issue.id
        ∧ (WriteIssue faults fs now issue d).fs.byId issue.id = some (mkEnvelope now issue d)
        ∧ (WriteIssue faults fs now issue d).warned = false)
    ∧ (faults.writeFails = false → faults.symlinkFails = true →
        (WriteIssue faults fs now issue d).warned = true
        ∧ (WriteIssue faults fs now issue d).result
            = .ok ("by_id/" ++ issue.id ++ ".json")
        ∧ (WriteIssue faults fs now issue d).fs.byKey issue.key = none
        ∧ (WriteIssue faults fs now issue d).fs.byId issue.id
            = some (mkEnvelope now issue d)) := by
  obtain ⟨wf, sf⟩ := faults
  refine ⟨?_, ?_, ?_⟩
  · cases wf <;> cases sf <;> simp [WriteIssue]
  · intro hw hsf
    simp only at hw hsf
    subst hw hsf
    refine ⟨?_, ?_, ?_⟩ <;> simp [WriteIssue, setEntry]
  · intro hw hsf
    simp only at hw hsf
    subst hw hsf
    refine ⟨?_, ?_, ?_, ?_⟩ <;> simp [WriteIssue, setEntry]

/-- Witness for C6: a fault-free write and a symlink-failing write of a
concrete issue into the empty cache. -/
theorem c6_write_issue_success_criterion_witness :
    ((∃ p, (WriteIssue ⟨false, true⟩ emptyFS 7
        { id := "10", key := "AAH-1", self := "", fields := none, changelog := none }
        4).result = .ok p) ↔ (false : Bool) = false)
    ∧ ((WriteIssue ⟨false, false⟩ emptyFS 7
          { id := "10", key := "AAH-1", self := "", fields := none, changelog := none }
          4).fs.byKey "AAH-1" = some "10"
        ∧ (WriteIssue ⟨false, false⟩ emptyFS 7
            { id := "10", key := "AAH-1", self := "", fields := none, changelog := none }
            4).fs.byId "10"
          = some (mkEnvelope 7
              { id := "10", key := "AAH-1", self := "", fields := none, changelog := none } 4)
        ∧ (WriteIssue ⟨false, false⟩ emptyFS 7
            { id := "10", key := "AAH-1", self := "", fields := none, changelog := none }
            4).warned = false)
    ∧ ((WriteIssue ⟨false, true⟩ emptyFS 7
          { id := "10", key := "AAH-1", self := "", fields := none, changelog := none }
          4).warned = true
        ∧ (WriteIssue ⟨false, true⟩ emptyFS 7
            { id := "10", key := "AAH-1", self := "", fields := none, changelog := none }
            4).result = .ok ("by_id/" ++ "10" ++ ".json")
        ∧ (WriteIssue ⟨false, true⟩ emptyFS 7
            { id := "10", key := "AAH-1", self := "", fields := none, changelog := none }
            4).fs.byKey "AAH-1" = none
        ∧ (WriteIssue ⟨false, true⟩ emptyFS 7
            { id := "10", key := "AAH-1", self := "", fields := none, changelog := none }
            4).fs.byId "10"
          = some (mkEnvelope 7
              { id := "10", key := "AAH-1", self := "", fields := none, changelog := none }
              4)) :=
  ⟨(c6_write_issue_success_criterion ⟨false, true⟩ emptyFS 7
      { id := "10", key := "AAH-1", self := "", fields := none, changelog := none } 4).1,
   (c6_write_issue_success_criterion ⟨false, false⟩ emptyFS 7
      { id := "10", key := "AAH-1", self := "", fields := none, changelog := none } 4).2.1
      rfl rfl,
   (c6_write_issue_success_criterion ⟨false, true⟩ emptyFS 7
      { id := "10", key := "AAH-1", self := "", fields := none, changelog := none } 4).2.2
      rfl rfl⟩

/-! ## Claim C7 -/

/-- C7: after a fault-free `WriteIssue`, `GetIssueByID` on the id and
`GetIssue` on the key return the very same envelope (the by-key link
resolves to the by-ID record); and across two writes to the same key at
strictly increasing wall-clock times, the envelope's fetch timestamp
strictly increases. -/
theorem c7_lookup_roundtrip_and_timestamp (fs : CacheFS)
    (issue issue2 : IssueWithHistory) (d1 d2 : Int) (t1 t2 : Nat)
    (hkey : issue2.key = issue.key) (ht : t1 < t2) :
    (∃ env : CachedIssue,
        GetIssueByID (WriteIssue ⟨false, false⟩ fs t1 issue d1).fs issue.id = .ok env
        ∧ GetIssue (WriteIssue ⟨false, false⟩ fs t1 issue d1).fs issue.key = .ok env)
    ∧ (∀ e1 e2 : CachedIssue,
        GetIssue (WriteIssue ⟨false, false⟩ fs t1 issue d1).fs issue.key = .ok e1 →
        GetIssue (WriteIssue ⟨false, false⟩
            (WriteIssue ⟨false, false⟩ fs t1 issue d1).fs t2 issue2 d2).fs issue.key
          = .ok e2 →
        e1.cacheMetadata.fetchedAt < e2.cacheMetadata.fetchedAt) := by
  constructor
  · refine ⟨mkEnvelope t1 issue d1, ?_, ?_⟩
    · simp [WriteIssue, GetIssueByID, setEntry]
    · simp [WriteIssue, GetIssue, setEntry]
  · intro e1 e2 h1 h2
    simp [WriteIssue, GetIssue, setEntry] at h1
    simp [WriteIssue, GetIssue, setEntry, hkey] at h2
    rw [← h1, ← h2]
    exact ht

/-- Witness for C7: two writes of the same key at times 1 and 2. -/
theorem c7_lookup_roundtrip_and_timestamp_witness :
    (∃ env : CachedIssue,
        GetIssueByID (WriteIssue ⟨false, false⟩ emptyFS 1
          { id := "10", key := "AAH-1", self := "", fields := none, changelog := none }
          3).fs "10" = .ok env
        ∧ GetIssue (WriteIssue ⟨false, false⟩ emptyFS 1
            { id := "10", key := "AAH-1", self := "", fields := none, changelog := none }
            3).fs "AAH-1" = .ok env)
    ∧ (∀ e1 e2 : CachedIssue,
        GetIssue (WriteIssue ⟨false, false⟩ emptyFS 1
          { id := "10", key := "AAH-1", self := "", fields := none, changelog := none }
          3).fs "AAH-1" = .ok e1 →
        GetIssue (WriteIssue ⟨false, false⟩
            (WriteIssue ⟨false, false⟩ emptyFS 1
              { id := "10", key := "AAH-1", self := "", fields := none, changelog := none }
              3).fs 2
            { id := "10", key := "AAH-1", self := "", fields := none, changelog := none }
            5).fs "AAH-1" = .ok e2 →
        e1.cacheMetadata.fetchedAt < e2.cacheMetadata.fetchedAt) :=
  c7_lookup_roundtrip_and_timestamp emptyFS
    { id := "10", key := "AAH-1", self := "", fields := none, changelog := none }
    { id := "10", key := "AAH-1", self := "", fields := none, changelog := none }
    3 5 1 2 rfl (by omega)

/-! ## Orchestrator lemmas -/

/-- Full sync plans every enumerated key and records no cache hit. -/
theorem planKeys_full (fs : CacheFS) :
    ∀ keys : List String, planKeys true fs keys = (keys, 0) := by
  intro keys
  induction keys with
  | nil => rfl
  | cons key rest ih => simp [planKeys, ih]

/-- Incremental sync plans exactly the keys the existence probe denies
and counts the others as cache hits. -/
theorem planKeys_incremental (fs : CacheFS) :
    ∀ keys : List String,
      planKeys false fs keys
        = (keys.filter (fun k => ! Exists fs k),
           (keys.filter (fun k => Exists fs k)).length) := by
  intro keys
  induction keys with
  | nil => rfl
  | cons key rest ih =>
    by_cases hk : Exists fs key = true
    · simp [planKeys, ih, hk]
    · simp only [Bool.not_eq_true] at hk
      simp [planKeys, ih, hk]

/-- The planning phase reads nothing of the cache but the existence
probe: two caches agreeing on `Exists` produce the same plan (no
timestamp comparison is performed). -/
theorem planKeys_exists_only (b : Bool) (fs fs' : CacheFS)
    (h : ∀ k, Exists fs k = Exists fs' k) :
    ∀ keys : List String, planKeys b fs keys = planKeys b fs' keys := by
  intro keys
  induction keys with
  | nil => rfl
  | cons key rest ih => simp [planKeys, ih, h key]

/-- The plan splits the enumerated keys: to-fetch count plus cache hits
equals the number of keys. -/
theorem planKeys_split (b : Bool) (fs : CacheFS) :
    ∀ keys : List String,
      (planKeys b fs keys).1.length + (planKeys b fs keys).2 = keys.length := by
  intro keys
  induction keys with
  | nil => rfl
  | cons key rest ih =>
    by_cases hb : b
    · subst hb
      simp [planKeys]
      omega
    · simp only [Bool.not_eq_true] at hb
      subst hb
      by_cases hk : Exists fs key = true
      · simp [planKeys, hk]
        omega
      · simp only [Bool.not_eq_true] at hk
        simp [planKeys, hk]
        omega

/-- The fetch loop consults the fetch oracle only on the keys of its
work list. -/
theorem fetchLoop_congr (fetch fetch' : String → Except String (IssueWithHistory × Int))
    (faults : String → FsFaults) :
    ∀ (l : List String) (st : FetchState),
      (∀ k, k ∈ l → fetch k = fetch' k) →
      fetchLoop fetch faults l st = fetchLoop fetch' faults l st := by
  intro l
  induction l with
  | nil => intro st _; rfl
  | cons key rest ih =>
    intro st h
    have hkey : fetch key = fetch' key := h key (by simp)
    have hrest : ∀ k, k ∈ rest → fetch k = fetch' k := fun k hk => h k (by simp [hk])
    rw [fetchLoop, fetchLoop, ← hkey]
    cases hf : fetch key with
    | error e => simp only []; rw [ih _ hrest]
    | ok pr =>
      simp only []
      cases hw : (WriteIssue (faults key) st.fs st.clock pr.1 pr.2).result with
      | error e => simp only []; rw [ih _ hrest]
      | ok p => simp only []; rw [ih _ hrest]

/-- Step equation: a fetch failure counts an error, skips the write and
the sleep, and moves on. -/
theorem fetchLoop_fetchErr (fetch : String → Except String (IssueWithHistory × Int))
    (faults : String → FsFaults) (key : String) (rest : List String)
    (st : FetchState) (err : String) (hk : fetch key = .error err) :
    fetchLoop fetch faults (key :: rest) st
      = ((fetchLoop fetch faults rest
            { st with errors := st.errors + 1, clock := st.clock + 1 }).1,
         .fetchError key :: (fetchLoop fetch faults rest
            { st with errors := st.errors + 1, clock := st.clock + 1 }).2) := by
  rw [fetchLoop, hk]

/-- Step equation: a successful fetch whose cache write fails counts
the API call and an error, skips the sleep, and moves on. -/
theorem fetchLoop_writeErr (fetch : String → Except String (IssueWithHistory × Int))
    (faults : String → FsFaults) (key : String) (rest : List String)
    (st : FetchState) (pr : IssueWithHistory × Int) (err : String)
    (hk : fetch key = .ok pr)
    (hw : (WriteIssue (faults key) st.fs st.clock pr.1 pr.2).result = .error err) :
    fetchLoop fetch faults (key :: rest) st
      = ((fetchLoop fetch faults rest
            { st with apiCalls := st.apiCalls + 1,
                      fs := (WriteIssue (faults key) st.fs st.clock pr.1 pr.2).fs,
                      errors := st.errors + 1, clock := st.clock + 1 }).1,
         .writeError key :: (fetchLoop fetch faults rest
            { st with apiCalls := st.apiCalls + 1,
                      fs := (WriteIssue (faults key) st.fs st.clock pr.1 pr.2).fs,
                      errors := st.errors + 1, clock := st.clock + 1 }).2) := by
  rw [fetchLoop, hk]
  simp only []
  rw [hw]

/-- Step equation: a successful fetch-and-write counts the API call and
is followed by the 500 ms politeness sleep. -/
theorem fetchLoop_writeOk (fetch : String → Except String (IssueWithHistory × Int))
    (faults : String → FsFaults) (key : String) (rest : List String)
    (st : FetchState) (pr : IssueWithHistory × Int) (p : String)
    (hk : fetch key = .ok pr)
    (hw : (WriteIssue (faults key) st.fs st.clock pr.1 pr.2).result = .ok p) :
    fetchLoop fetch faults (key :: rest) st
      = ((fetchLoop fetch faults rest
            { st with apiCalls := st.apiCalls + 1,
                      fs := (WriteIssue (faults key) st.fs st.clock pr.1 pr.2).fs,
                      clock := st.clock + 1 }).1,
         .wrote key :: .sleep 500 :: (fetchLoop fetch faults rest
            { st with apiCalls := st.apiCalls + 1,
                      fs := (WriteIssue (faults key) st.fs st.clock pr.1 pr.2).fs,
                      clock := st.clock + 1 }).2) := by
  rw [fetchLoop, hk]
  simp only []
  rw [hw]

/-- Counter bookkeeping of the fetch loop: the API-call increment is at
most the number of keys processed, and every key yields either an API
call or an error increment (write failures add an error on top of the
already-counted API call). -/
theorem fetchLoop_counters (fetch : String → Except String (IssueWithHistory × Int))
    (faults : String → FsFaults) :
    ∀ (l : List String) (st : FetchState),
      ∃ a e : Nat,
        (fetchLoop fetch faults l st).1.apiCalls = st.apiCalls + a
        ∧ (fetchLoop fetch faults l st).1.errors = st.errors + e
        ∧ a ≤ l.length ∧ l.length ≤ a + e := by
  intro l
  induction l with
  | nil =>
    intro st
    exact ⟨0, 0, by simp [fetchLoop], by simp [fetchLoop], by simp, by simp⟩
  | cons key rest ih =>
    intro st
    cases hf : fetch key with
    | error err =>
      rw [fetchLoop_fetchErr fetch faults key rest st err hf]
      obtain ⟨a, e, ha, he, hal, hle⟩ :=
        ih { st with errors := st.errors + 1, clock := st.clock + 1 }
      have ha' : (fetchLoop fetch faults rest
          { st with errors := st.errors + 1, clock := st.clock + 1 }).1.apiCalls
          = st.apiCalls + a := by simpa using ha
      have he' : (fetchLoop fetch faults rest
          { st with errors := st.errors + 1, clock := st.clock + 1 }).1.errors
          = st.errors + 1 + e := by simpa using he
      refine ⟨a, e + 1, by simpa using ha', by simp only []; omega, ?_, ?_⟩
      · simp only [List.length_cons]; omega
      · simp only [List.length_cons]; omega
    | ok pr =>
      cases hw : (WriteIssue (faults key) st.fs st.clock pr.1 pr.2).result with
      | error err =>
        rw [fetchLoop_writeErr fetch faults key rest st pr err hf hw]
        obtain ⟨a, e, ha, he, hal, hle⟩ :=
          ih { st with apiCalls := st.apiCalls + 1,
                       fs := (WriteIssue (faults key) st.fs st.clock pr.1 pr.2).fs,
                       errors := st.errors + 1, clock := st.clock + 1 }
        have ha' : (fetchLoop fetch faults rest
            { st with apiCalls := st.apiCalls + 1,
                      fs := (WriteIssue (faults key) st.fs st.clock pr.1 pr.2).fs,
                      errors := st.errors + 1, clock := st.clock + 1 }).1.apiCalls
            = st.apiCalls + 1 + a := by simpa using ha
        have he' : (fetchLoop fetch faults rest
            { st with apiCalls := st.apiCalls + 1,
                      fs := (WriteIssue (faults key) st.fs st.clock pr.1 pr.2).fs,
                      errors := st.errors + 1, clock := st.clock + 1 }).1.errors
            = st.errors + 1 + e := by simpa using he
        refine ⟨a + 1, e + 1, by simp only []; omega, by simp only []; omega, ?_, ?_⟩
        · simp only [List.length_cons]; omega
        · simp only [List.length_cons]; omega
      | ok p =>
        rw [fetchLoop_writeOk fetch faults key rest st pr p hf hw]
        obtain ⟨a, e, ha, he, hal, hle⟩ :=
          ih { st with apiCalls := st.apiCalls + 1,
                       fs := (WriteIssue (faults key) st.fs st.clock pr.1 pr.2).fs,
                       clock := st.clock + 1 }
        have ha' : (fetchLoop fetch faults rest
            { st with apiCalls := st.apiCalls + 1,
                      fs := (WriteIssue (faults key) st.fs st.clock pr.1 pr.2).fs,
                      clock := st.clock + 1 }).1.apiCalls
            = st.apiCalls + 1 + a := by simpa using ha
        have he' : (fetchLoop fetch faults rest
            { st with apiCalls := st.apiCalls + 1,
                      fs := (WriteIssue (faults key) st.fs st.clock pr.1 pr.2).fs,
                      clock := st.clock + 1 }).1.errors
            = st.errors + e := by simpa using he
        refine ⟨a + 1, e, by simp only []; omega, by simp only []; omega, ?_, ?_⟩
        · simp only [List.length_cons]; omega
        · simp only [List.length_cons]; omega

/-- In every fetch-loop trace the politeness sleep follows exactly the
successful fetch-and-write events. -/
theorem fetchLoop_sleeps (fetch : String → Except String (IssueWithHistory × Int))
    (faults : String → FsFaults) :
    ∀ (l : List String) (st : FetchState),
      sleepsFollowWrites (fetchLoop fetch faults l st).2 = true := by
  intro l
  induction l with
  | nil => intro st; rfl
  | cons key rest ih =>
    intro st
    cases hf : fetch key with
    | error err =>
      rw [fetchLoop_fetchErr fetch faults key rest st err hf]
      show sleepsFollowWrites (fetchLoop fetch faults rest
        { st with errors := st.errors + 1, clock := st.clock + 1 }).2 = true
      exact ih _
    | ok pr =>
      cases hw : (WriteIssue (faults key) st.fs st.clock pr.1 pr.2).result with
      | error err =>
        rw [fetchLoop_writeErr fetch faults key rest st pr err hf hw]
        show sleepsFollowWrites (fetchLoop fetch faults rest
          { st with apiCalls := st.apiCalls + 1,
                    fs := (WriteIssue (faults key) st.fs st.clock pr.1 pr.2).fs,
                    errors := st.errors + 1, clock := st.clock + 1 }).2 = true
        exact ih _
      | ok p =>
        rw [fetchLoop_writeOk fetch faults key rest st pr p hf hw]
        show (decide (500 = 500) && sleepsFollowWrites (fetchLoop fetch faults rest
          { st with apiCalls := st.apiCalls + 1,
                    fs := (WriteIssue (faults key) st.fs st.clock pr.1 pr.2).fs,
                    clock := st.clock + 1 }).2) = true
        rw [ih _]
        simp

/-! ## Claim C3 -/

/-- C3: full-sync mode plans every enumerated key unconditionally; in
incremental mode the plan is exactly the keys whose cache existence
probe fails — existing keys are counted as cache hits and are never
passed to the fetch phase, so no network fetch happens for them; the
plan depends on nothing but existence (no timestamp comparison). -/
theorem c3_incremental_skips_cached_keys :
    (∀ (fs : CacheFS) (keys : List String), planKeys true fs keys = (keys, 0))
    ∧ (∀ (fs : CacheFS) (keys : List String),
        planKeys false fs keys
          = (keys.filter (fun k => ! Exists fs k),
             (keys.filter (fun k => Exists fs k)).length))
    ∧ (∀ (fs : CacheFS) (keys : List String) (key : String),
        Exists fs key = true → key ∉ (planKeys false fs keys).1)
    ∧ (∀ (b : Bool) (fs fs' : CacheFS), (∀ k, Exists fs k = Exists fs' k) →
        ∀ keys : List String, planKeys b fs keys = planKeys b fs' keys)
    ∧ (∀ (enum : Except String (List String))
        (fetch fetch' : String → Except String (IssueWithHistory × Int))
        (faults : String → FsFaults) (fs : CacheFS) (clock : Nat),
        (∀ k, Exists fs k = false → fetch k = fetch' k) →
        ScrapeProject enum fetch faults false fs clock
          = ScrapeProject enum fetch' faults false fs clock) := by
  refine ⟨planKeys_full, planKeys_incremental, ?_, planKeys_exists_only, ?_⟩
  · intro fs keys key hkey
    rw [planKeys_incremental]
    intro hmem
    have := (List.mem_filter.mp hmem).2
    simp [hkey] at this
  · intro enum fetch fetch' faults fs clock h
    cases enum with
    | error e => rfl
    | ok keys =>
      have hmem : ∀ k, k ∈ (planKeys false fs keys).1 → fetch k = fetch' k := by
        intro k hk
        apply h
        rw [planKeys_incremental] at hk
        have := (List.mem_filter.mp hk).2
        simpa using this
      simp only [ScrapeProject]
      rw [fetchLoop_congr fetch fetch' faults (planKeys false fs keys).1
        { fs := fs, apiCalls := 0, errors := 0, clock := clock } hmem]

/-- Witness for C3: a cache holding `AAH-1`, an enumeration of
`AAH-1`/`AAH-2`, and two fetch oracles agreeing on the uncached key. -/
theorem c3_incremental_skips_cached_keys_witness :
    planKeys true emptyFS ["AAH-1"] = (["AAH-1"], 0)
    ∧ planKeys false (WriteIssue ⟨false, false⟩ emptyFS 0
        { id := "10", key := "AAH-1", self := "", fields := none, changelog := none }
        1).fs ["AAH-1", "AAH-2"]
      = (["AAH-1", "AAH-2"].filter (fun k => ! Exists (WriteIssue ⟨false, false⟩ emptyFS 0
          { id := "10", key := "AAH-1", self := "", fields := none, changelog := none }
          1).fs k),
         (["AAH-1", "AAH-2"].filter (fun k => Exists (WriteIssue ⟨false, false⟩ emptyFS 0
          { id := "10", key := "AAH-1", self := "", fields := none, changelog := none }
          1).fs k)).length)
    ∧ "AAH-1" ∉ (planKeys false (WriteIssue ⟨false, false⟩ emptyFS 0
        { id := "10", key := "AAH-1", self := "", fields := none, changelog := none }
        1).fs ["AAH-1", "AAH-2"]).1
    ∧ planKeys false emptyFS ["AAH-1"] = planKeys false emptyFS ["AAH-1"]
    ∧ ScrapeProject (.ok ["AAH-1"]) (fun _ => .error "boom") (fun _ => ⟨false, false⟩)
        false emptyFS 0
      = ScrapeProject (.ok ["AAH-1"]) (fun _ => .error "boom") (fun _ => ⟨false, false⟩)
        false emptyFS 0 :=
  ⟨c3_incremental_skips_cached_keys.1 emptyFS ["AAH-1"],
   c3_incremental_skips_cached_keys.2.1 (WriteIssue ⟨false, false⟩ emptyFS 0
     { id := "10", key := "AAH-1", self := "", fields := none, changelog := none } 1).fs
     ["AAH-1", "AAH-2"],
   c3_incremental_skips_cached_keys.2.2.1 (WriteIssue ⟨false, false⟩ emptyFS 0
     { id := "10", key := "AAH-1", self := "", fields := none, changelog := none } 1).fs
     ["AAH-1", "AAH-2"] "AAH-1" (by decide),
   c3_incremental_skips_cached_keys.2.2.2.1 false emptyFS emptyFS (fun _ => rfl) ["AAH-1"],
   c3_incremental_skips_cached_keys.2.2.2.2 (.ok ["AAH-1"]) (fun _ => .error "boom")
     (fun _ => .error "boom") (fun _ => ⟨false, false⟩) emptyFS 0 (fun _ _ => rfl)⟩

/-! ## Claim C5

The claim says a fixed 500 ms delay follows *every* fetch attempt,
success or failure.  In the source (scraper.go lines 199-215) both
failure paths `continue` past the `time.Sleep(500 * time.Millisecond)`
statement, so the delay follows only successful fetch-and-write
attempts.  `c5_sleep_counterexample` exhibits a run with a failed
attempt and no sleep at all; `c5_sleep_after_success_only` proves the
amended claim. -/

/-- C5 counterexample: a one-key incremental run whose fetch fails
produces the trace `[fetchError]` — no 500 ms sleep follows the failed
attempt, contradicting the claim that a sleep follows every attempt. -/
theorem c5_sleep_counterexample :
    ScrapeProject (.ok ["AAH-1"]) (fun _ => .error "connection refused")
        (fun _ => ⟨false, false⟩) false emptyFS 0
      = .ok ({ issuesProcessed := 1, apiCalls := 0, cacheHits := 0, errors := 1 },
          emptyFS, [.fetchError "AAH-1"])
    ∧ FetchEvent.sleep 500 ∉ [FetchEvent.fetchError "AAH-1"] :=
  ⟨rfl, by decide⟩

/-- C5 (amended): in every `ScrapeProject` run, the 500 ms politeness
sleep follows each *successful* fetch-and-write and only those; a fetch
or write failure continues to the next key with no sleep. -/
theorem c5_sleep_after_success_only (enum : Except String (List String))
    (fetch : String → Except String (IssueWithHistory × Int))
    (faults : String → FsFaults) (fullSync : Bool) (fs : CacheFS) (clock : Nat)
    (res : ScrapeResult) (fs' : CacheFS) (trace : List FetchEvent)
    (hrun : ScrapeProject enum fetch faults fullSync fs clock = .ok (res, fs', trace)) :
    sleepsFollowWrites trace = true := by
  cases enum with
  | error e => simp [ScrapeProject] at hrun
  | ok keys =>
    simp only [ScrapeProject, Except.ok.injEq, Prod.mk.injEq] at hrun
    obtain ⟨-, -, h3⟩ := hrun
    rw [← h3]
    exact fetchLoop_sleeps fetch faults (planKeys fullSync fs keys).1
      { fs := fs, apiCalls := 0, errors := 0, clock := clock }

/-- Witness for C5 (amended): a run with one successful key yields the
trace `[wrote, sleep 500]`, which the checker accepts. -/
theorem c5_sleep_after_success_only_witness :
    sleepsFollowWrites [FetchEvent.wrote "AAH-1", FetchEvent.sleep 500] = true :=
  c5_sleep_after_success_only (.ok ["AAH-1"])
    (fun _ => .ok (⟨"10", "AAH-1", "", none, none⟩, 1))
    (fun _ => ⟨false, false⟩) true emptyFS 0
    { issuesProcessed := 1, apiCalls := 1, cacheHits := 0, errors := 0 }
    (WriteIssue ⟨false, false⟩ emptyFS 0
      { id := "10", key := "AAH-1", self := "", fields := none, changelog := none } 1).fs
    [FetchEvent.wrote "AAH-1", FetchEvent.sleep 500] rfl

/-! ## Claim C10 -/

/-- C10: for every run that returns a result, the counters satisfy
`apiCalls + cacheHits ≤ issuesProcessed ≤ apiCalls + cacheHits + errors`
— each enumerated key is a cache hit, a successful API call, or a fetch
failure counted in `errors`, with write failures adding an error on top
of an already-counted API call. -/
theorem c10_counter_invariant (enum : Except String (List String))
    (fetch : String → Except String (IssueWithHistory × Int))
    (faults : String → FsFaults) (fullSync : Bool) (fs : CacheFS) (clock : Nat)
    (res : ScrapeResult) (fs' : CacheFS) (trace : List FetchEvent)
    (hrun : ScrapeProject enum fetch faults fullSync fs clock = .ok (res, fs', trace)) :
    res.apiCalls + res.cacheHits ≤ res.issuesProcessed
    ∧ res.issuesProcessed ≤ res.apiCalls + res.cacheHits + res.errors := by
  cases enum with
  | error e => simp [ScrapeProject] at hrun
  | ok keys =>
    simp only [ScrapeProject, Except.ok.injEq, Prod.mk.injEq] at hrun
    obtain ⟨h1, -, -⟩ := hrun
    obtain ⟨a, e, ha, he, hal, hle⟩ := fetchLoop_counters fetch faults
      (planKeys fullSync fs keys).1
      { fs := fs, apiCalls := 0, errors := 0, clock := clock }
    have ha' : (fetchLoop fetch faults (planKeys fullSync fs keys).1
        { fs := fs, apiCalls := 0, errors := 0, clock := clock }).1.apiCalls = a := by
      simpa using ha
    have he' : (fetchLoop fetch faults (planKeys fullSync fs keys).1
        { fs := fs, apiCalls := 0, errors := 0, clock := clock }).1.errors = e := by
      simpa using he
    have hsplit := planKeys_split fullSync fs keys
    rw [← h1]
    constructor
    · show (fetchLoop fetch faults (planKeys fullSync fs keys).1
          { fs := fs, apiCalls := 0, errors := 0, clock := clock }).1.apiCalls
          + (planKeys fullSync fs keys).2 ≤ keys.length
      omega
    · show keys.length ≤ (fetchLoop fetch faults (planKeys fullSync fs keys).1
          { fs := fs, apiCalls := 0, errors := 0, clock := clock }).1.apiCalls
          + (planKeys fullSync fs keys).2
          + (fetchLoop fetch faults (planKeys fullSync fs keys).1
              { fs := fs, apiCalls := 0, errors := 0, clock := clock }).1.errors
      omega

/-- Witness for C10: a full-sync run over one key with a successful
fetch and write reports `1 + 0 ≤ 1 ∧ 1 ≤ 1 + 0 + 0`. -/
theorem c10_counter_invariant_witness :
    (1 : Nat) + 0 ≤ 1 ∧ (1 : Nat) ≤ 1 + 0 + 0 :=
  c10_counter_invariant (.ok ["AAH-1"])
    (fun _ => .ok (⟨"10", "AAH-1", "", none, none⟩, 1))
    (fun _ => ⟨false, false⟩) true emptyFS 0
    { issuesProcessed := 1, apiCalls := 1, cacheHits := 0, errors := 0 }
    (WriteIssue ⟨false, false⟩ emptyFS 0
      { id := "10", key := "AAH-1", self := "", fields := none, changelog := none } 1).fs
    [FetchEvent.wrote "AAH-1", FetchEvent.sleep 500] rfl

end JiraScraper
